import Mathlib

/-!
Verification of the Simporter record-resolution and process-decomposition engine.

Shallow embedding of `simporter.py` (class `Simporter`).  Python strings are
modelled as `List Char`, Python dictionaries with a fixed key set as structures
with `Option` fields for keys that may be absent, and Python exceptions as an
explicit `Except PyError` monad.  Numeric amounts are modelled as rationals.

External data tables (the obsolete-process list, the simapro-biosphere rename
table, the compartment/subcompartment code tables) are JSON resources loaded at
`__init__` time; they enter the embedding as explicit parameters of the
functions that consult them.  The external brightway2 database query primitive
`Database(...).search(...)` is likewise a function parameter.
-/

namespace Simporter

/-- Python `str`, modelled as a list of characters. -/
abbrev PyStr := List Char

/-- Coerce a Lean string literal to the `PyStr` model. -/
def pyStr (s : String) : PyStr := s.data

/-- The Python exceptions that the engine can raise. -/
inductive PyError where
  | indexError
  | keyError
  | valueError
  | assertionError
  | nameError
  | typeError
  deriving DecidableEq, Repr

instance {ε α : Type} [DecidableEq ε] [DecidableEq α] : DecidableEq (Except ε α) := fun a b =>
  match a, b with
  | .error e, .error e' =>
    if h : e = e' then .isTrue (by rw [h]) else .isFalse (by intro hh; cases hh; exact h rfl)
  | .ok x, .ok y =>
    if h : x = y then .isTrue (by rw [h]) else .isFalse (by intro hh; cases hh; exact h rfl)
  | .error _, .ok _ => .isFalse (by intro hh; cases hh)
  | .ok _, .error _ => .isFalse (by intro hh; cases hh)

/-- Python `lst[i]` for a non-negative index: `IndexError` when out of range. -/
def pyIdx {α : Type} (l : List α) (i : Nat) : Except PyError α :=
  match l.get? i with
  | some a => .ok a
  | none => .error .indexError

/-- Python `lst[i]` for a possibly negative index (negative indices wrap from
the end, as in Python). -/
def pyIdxI {α : Type} (l : List α) (i : Int) : Except PyError α :=
  if i < 0 then
    match (Int.ofNat l.length + i).toNat' with
    | some n => if i ≥ -(Int.ofNat l.length) then pyIdx l n else .error .indexError
    | none => .error .indexError
  else pyIdx l i.toNat

/-- Python `d[k]` on a record field that models an optional dictionary key:
`KeyError` when the key is absent. -/
def pyKey {α : Type} (o : Option α) : Except PyError α :=
  match o with
  | some a => .ok a
  | none => .error .keyError

/-- Python `lst[0]` of a list that is the result of a comprehension: `IndexError`
when the comprehension produced nothing. -/
def pyHead {α : Type} (l : List α) : Except PyError α := pyIdx l 0

/-- Strip `sep` from the front of `s`; `none` when `s` does not start with
`sep`. -/
def stripFront : PyStr → PyStr → Option PyStr
  | [], s => some s
  | _ :: _, [] => none
  | c :: cs, d :: ds => if c = d then stripFront cs ds else none

/-- Locate the first occurrence of `sep` in `s`, returning the part before it
and the part after it. -/
def splitFirst (sep : PyStr) : PyStr → Option (PyStr × PyStr)
  | [] =>
    match stripFront sep [] with
    | some rest => some ([], rest)
    | none => none
  | c :: cs =>
    match stripFront sep (c :: cs) with
    | some rest => some ([], rest)
    | none =>
      match splitFirst sep cs with
      | some (pre, post) => some (c :: pre, post)
      | none => none

/-- Fuelled worker for `pySplit`. -/
def pySplitF : Nat → PyStr → PyStr → List PyStr
  | 0, _, s => [s]
  | fuel + 1, sep, s =>
    match splitFirst sep s with
    | none => [s]
    | some (pre, post) => pre :: pySplitF fuel sep post

/-- Python `s.split(sep)` for a non-empty separator: split on every
non-overlapping occurrence, left to right. -/
def pySplit (sep s : PyStr) : List PyStr := pySplitF (s.length + 1) sep s

/-- Python `pat in s` (substring containment) for a non-empty `pat`,
expressed through `pySplit`: the pattern occurs iff the split has at least
two parts. -/
def pyIn (pat s : PyStr) : Bool := 2 ≤ (pySplit pat s).length

/-- Python `s.startswith(pat)`. -/
def pyStartsWith (pat s : PyStr) : Bool := (stripFront pat s).isSome

/-- Python `s.endswith(pat)` (used to model the regex
`.*? to generic market for$` and `^...` anchored patterns). -/
def pyEndsWith (pat s : PyStr) : Bool := (stripFront pat.reverse s.reverse).isSome

/-- Python `s.lower()`. -/
def toLowerStr (s : PyStr) : PyStr := s.map Char.toLower

/-- Python `s.rstrip()`: drop trailing whitespace. -/
def rstrip (s : PyStr) : PyStr := (s.reverse.dropWhile Char.isWhitespace).reverse

/-- Python `s.replace(' ', '')`: drop every space. -/
def dropSpaces (s : PyStr) : PyStr := s.filter (fun c => ¬ (c = ' '))

/-- Python `''.join(parts)`. -/
def joinStr (parts : List PyStr) : PyStr := parts.foldr (· ++ ·) []

/-- Python dictionary lookup `d.get(k)` on an association list (dictionaries
keep insertion order; lookups scan by key equality). -/
def dictGet {α : Type} (d : List (PyStr × α)) (k : PyStr) : Option α :=
  match d.find? (fun kv => kv.1 = k) with
  | some kv => some kv.2
  | none => none

/-- Python `k in d` for an association-list dictionary. -/
def dictHas {α : Type} (d : List (PyStr × α)) (k : PyStr) : Bool :=
  (dictGet d k).isSome

/-- The parsed form of a composite SimaPro exchange name
`<reference product> {<location>}| <process name>`. -/
structure ParsedName where
  reference_product : PyStr
  process_name : PyStr
  location : PyStr
  deriving DecidableEq, Repr

/-- The one post-parse location normalization (`matching_to_ecoinvent`,
lines 205-206): the alias `'WECC, US only'` is canonicalized to `'WECC'`. -/
def normalizeLocation (loc : PyStr) : PyStr :=
  if loc = pyStr "WECC, US only" then pyStr "WECC" else loc

/-- The name parser (`matching_to_ecoinvent`, lines 200-206):

* `reference_product = name.split('| ')[0].split(' {')[0]`
* `name = name.split('| ')[1].rstrip()`
* `location = name.split('| ')[0].split(' {')[1].split('}')[0]`
* the `'WECC, US only'` alias is replaced by `'WECC'`.

Index `[1]` raises `IndexError` when the corresponding separator is absent;
the accesses happen in the source's order (product, then process name, then
location). -/
def parseSPName (full : PyStr) : Except PyError ParsedName := do
  let pipeParts := pySplit (pyStr "| ") full
  let head ← pyIdx pipeParts 0
  let rp ← pyIdx (pySplit (pyStr " \x7b") head) 0
  let nmRaw ← pyIdx pipeParts 1
  let nm := rstrip nmRaw
  let locRaw ← pyIdx (pySplit (pyStr " \x7b") head) 1
  let loc0 ← pyIdx (pySplit (pyStr "\x7d") locRaw) 0
  .ok { reference_product := rp, process_name := nm, location := normalizeLocation loc0 }

/-- The value stored under an exchange's `'allocation'` key: SimaPro writes
either a numeric percentage or the name of a parameter (a string). -/
inductive AllocVal where
  | num (q : ℚ)
  | str (s : PyStr)
  deriving DecidableEq, Repr

/-- One exchange dictionary.  `name`, `amount` and `type` are always present
in the imported data; the remaining keys are optional and are modelled with
`Option`. `input`/`output` are the resolved link pairs
`(database name, record code)`. -/
structure Exchange where
  name : PyStr
  amount : ℚ
  ty : PyStr
  categories : Option (PyStr × PyStr) := none
  allocation : Option AllocVal := none
  formula : Option PyStr := none
  unit : Option PyStr := none
  input : Option (PyStr × PyStr) := none
  output : Option (PyStr × PyStr) := none
  deriving DecidableEq, Repr

/-- Python `exc['type'] == 'production'`. -/
def isProd (e : Exchange) : Bool := e.ty = pyStr "production"

/-- One activity-level parameter record as imported (the dictionary that
`self.sp.data[i]['parameters'][name]` holds). -/
structure ParamData where
  amount : ℚ
  comment : PyStr
  uncertainty_type : Option ℚ := none
  loc : Option ℚ := none
  formula : Option PyStr := none
  scale : Option ℚ := none
  negative : Option Bool := none
  deriving DecidableEq, Repr

/-- One activity-level parameter after `conform_data_to_brightway_format`
reorganized the parameter dictionary into a list (lines 701-720). -/
structure NamedParam where
  amount : ℚ
  comment : PyStr
  name : PyStr
  uncertainty_type : Option ℚ := none
  loc : Option ℚ := none
  formula : Option PyStr := none
  scale : Option ℚ := none
  negative : Option Bool := none
  deriving DecidableEq, Repr

/-- The `'parameters'` value of a process: a name-keyed dictionary before
`conform_data_to_brightway_format`, a list of records afterwards. -/
inductive ParamStore where
  | dictForm (d : List (PyStr × ParamData))
  | listForm (l : List NamedParam)
  deriving DecidableEq, Repr

/-- One process dictionary.  Keys that the pipeline may find absent are
`Option`-valued. -/
structure Process where
  name : Option PyStr := none
  reference_product : Option PyStr := none
  production_amount : Option ℚ := none
  unit : Option PyStr := none
  formula : Option PyStr := none
  exchanges : List Exchange := []
  parameters : Option ParamStore := none
  code : Option PyStr := none
  deriving DecidableEq, Repr

/-- A project-global parameter dictionary (`self.sp.global_parameters`),
keyed by parameter name. -/
abbrev GlobalParams := List (PyStr × ParamData)

/-! ## 4.1 Allocation resolver (`dealing_with_allocation_defined_by_parameters`) -/

/-- The scan of lines 640-647 and 677-684: the indices of the processes that
hold at least one exchange whose `'allocation'` value is a string.  The
`try/except` around `exc["allocation"]` turns a missing key into a skip. -/
def collectFlagged (data : List Process) : List Nat :=
  (data.enum.foldl (fun acc pi =>
    pi.2.exchanges.foldl (fun acc2 exc =>
      match exc.allocation with
      | some (.str _) => if pi.1 ∈ acc2 then acc2 else acc2 ++ [pi.1]
      | _ => acc2) acc) [])

/-- The per-exchange body of lines 653-673.  For an exchange whose
`'allocation'` value is a string, the lowercased name is looked up:

* `alloc_name.lower() in self.sp.data[p]['parameters']` — when the process
  has a `'parameters'` dictionary and the key is present, the string is
  replaced by that parameter's `'amount'`;
* otherwise `alloc_name.lower() in self.sp.global_parameters` — replaced by
  the global parameter's `'amount'`;
* when the process has a `'parameters'` dictionary but the key is in
  neither scope, both the `if` and the `elif` fail and the exchange is left
  unchanged (no exception is raised here);
* when the process has no `'parameters'` key at all, the membership test
  itself raises `KeyError`, which the handler turns into a global lookup
  and, failing that, `ValueError`.

A process whose `'parameters'` value is already in list form behaves like a
dictionary miss (Python `in` on a list of records never equals a string). -/
def resolveAllocExc (params : Option ParamStore) (globals : GlobalParams)
    (exc : Exchange) : Except PyError Exchange :=
  match exc.allocation with
  | some (.str s) =>
    let key := toLowerStr s
    match params with
    | some (.dictForm d) =>
      match dictGet d key with
      | some pd => .ok { exc with allocation := some (.num pd.amount) }
      | none =>
        match dictGet globals key with
        | some pd => .ok { exc with allocation := some (.num pd.amount) }
        | none => .ok exc
    | some (.listForm _) =>
      match dictGet globals key with
      | some pd => .ok { exc with allocation := some (.num pd.amount) }
      | none => .ok exc
    | none =>
      match dictGet globals key with
      | some pd => .ok { exc with allocation := some (.num pd.amount) }
      | none => .error .valueError
  | _ => .ok exc

/-- Resolve every flagged process' exchanges in place (lines 650-673). -/
def resolveFlagged (globals : GlobalParams) (data : List Process)
    (flagged : List Nat) : Except PyError (List Process) :=
  flagged.foldlM (fun d idx => do
    let p ← pyIdx d idx
    let exs ← p.exchanges.mapM (resolveAllocExc p.parameters globals)
    .ok (d.set idx { p with exchanges := exs })) data

/-- Method `dealing_with_allocation_defined_by_parameters` (lines 633-685): flag the
processes with string allocations, resolve them, then re-scan and `assert`
that no string allocation remains.  Returns the updated data together with
the flagged index list (stored as `self.allocation_with_parameters`, which
`conform_data_to_brightway_format` consumes). -/
def dealingWithAllocation (globals : GlobalParams) (data : List Process) :
    Except PyError (List Process × List Nat) := do
  let flagged := collectFlagged data
  let data' ← resolveFlagged globals data flagged
  if collectFlagged data' = [] then .ok (data', flagged) else .error .assertionError

/-! ## 4.2 Multi-output decomposer (`conform_data_to_brightway_format`) -/

/-- Step 1 (lines 701-720): reorganize a process' parameters from a
name-keyed dictionary into a list of records.  `['amount']` and
`['comment']` are read unconditionally; `'loc'` is read whenever
`'uncertainty type'` is present (a missing `'loc'` would raise `KeyError`);
the remaining keys are copied only when present. -/
def reformatParamsProc (p : Process) : Except PyError Process :=
  match p.parameters with
  | some (.dictForm d) => do
    let params ← d.mapM (fun kv => do
      let pd := kv.2
      let uloc : Option (ℚ × ℚ) ←
        match pd.uncertainty_type with
        | some u => do
          let lc ← pyKey pd.loc
          .ok (some (u, lc))
        | none => .ok none
      .ok { amount := pd.amount, comment := pd.comment, name := kv.1,
            uncertainty_type := uloc.map Prod.fst, loc := uloc.map Prod.snd,
            formula := pd.formula, scale := pd.scale,
            negative := pd.negative : NamedParam })
    .ok { p with parameters := some (.listForm params) }
  | _ => .ok p

/-- Lines 745-759: build `prod_exchange` and append it to the new activity's
exchange list.  The `try`/`except` that copies `production_flow['unit']` has
two defects which this definition reproduces exactly:

* the `append` statement sits *inside* the `except` handler (after the
  `pass`), so when `'unit'` is present no exception is raised, the handler
  body never runs, and nothing is appended;
* the handler names an undefined exception class `KeyyError`, so when
  `'unit'` is absent the `KeyError` escalates to a `NameError` and the run
  crashes before any append. -/
def appendProdExchange (production_flow : Exchange) (exchanges : List Exchange) :
    Except PyError (List Exchange) :=
  match production_flow.unit with
  | some _ => .ok exchanges
  | none => .error .nameError

/-- Lines 735-759: create one single-output activity from the (already
production-stripped) multi-output process `origin` and one of its production
flows.  The metadata is taken from the production flow, every remaining
exchange amount is multiplied by `allocation / 100` (the division is
evaluated per exchange; a non-numeric or missing allocation raises there),
and the production exchange is "appended" by `appendProdExchange`.
`scaleExchange` is the loop body of lines 743-744: the amount is multiplied
by `production_flow['allocation'] / 100`, where a missing allocation key is
a `KeyError` and a still-textual allocation a `TypeError` (string / int),
each raised only when some exchange is actually iterated. -/
def scaleExchange (production_flow : Exchange) (input_data : Exchange) :
    Except PyError Exchange := do
  let alloc ←
    match production_flow.allocation with
    | some (.num q) => .ok q
    | some (.str _) => .error .typeError
    | none => .error .keyError
  .ok { input_data with amount := input_data.amount * (alloc / 100) }

/-- Lines 735-759: create one single-output activity from the (already
production-stripped) multi-output process `origin` and one of its production
flows (see `newActivityFor`). -/
def newActivityFor (origin : Process) (production_flow : Exchange) :
    Except PyError Process := do
  let scaled ← origin.exchanges.mapM (scaleExchange production_flow)
  let exs ← appendProdExchange production_flow scaled
  .ok { origin with
        name := some production_flow.name,
        reference_product := some production_flow.name,
        production_amount := some production_flow.amount,
        parameters := origin.parameters,
        exchanges := exs }

/-- Python `lst.remove(x)` repeated over a list of values: erase the first
element equal to each of them in turn. -/
def eraseAll {α : Type} [DecidableEq α] (xs : List α) (vs : List α) : List α :=
  vs.foldl (fun l v => l.erase v) xs

/-- The production exchange synthesized by the repair step
(lines 785-791): only `'name'`, `'amount'` and `'type'` are set. -/
def synthExchange (nm : PyStr) (amt : ℚ) : Exchange :=
  { name := nm, amount := amt, ty := pyStr "production" }

/-- Lines 773-791, applied to one process: when `'name'` is absent it is
recovered from the unique production exchange (the `assert len == 1`
becomes `AssertionError` otherwise, and a production exchange without
`'unit'` raises `KeyError`); then a process with no production exchange at
all receives the synthesized one. -/
def conformMetadataProc (p : Process) : Except PyError Process := do
  let p ←
    if p.name = none then do
      let production := p.exchanges.filter isProd
      match production with
      | [pr] => do
        let u ← pyKey pr.unit
        .ok { p with
              name := some pr.name,
              reference_product := some pr.name,
              production_amount := some pr.amount,
              unit := some u,
              formula := match pr.formula with | some f => some f | none => p.formula }
      | _ => .error .assertionError
    else .ok p
  if p.exchanges.filter isProd = [] then do
    let nm ← pyKey p.name
    let pa ← pyKey p.production_amount
    .ok { p with exchanges := p.exchanges ++ [synthExchange nm pa] }
  else .ok p

/-- Method `conform_data_to_brightway_format` (lines 687-791).  `flagged` is
`self.allocation_with_parameters` as computed by the allocation stage, and
`fresh n` stands for the `uuid.uuid4().hex` code generated for the `n`-th
process.  The steps, in source order:

1. reorganize activity parameters (lines 701-720);
2. collect the production flows of every *flagged* process (lines 723-725)
   — note the loop runs over `self.allocation_with_parameters`, not over
   all multi-output processes;
3. remove those production flows from their processes (lines 728-730);
4. decompose: one new activity per saved production flow, appended at the
   end of the data list (lines 733-761);
5. remove the emptied multi-output processes, with the running
   `key_removed` index shift (lines 764-767);
6. assign a fresh code to every process (lines 770-771);
7. repair metadata and missing production exchanges (lines 774-791). -/
def conformData (fresh : Nat → PyStr) (data0 : List Process) (flagged : List Nat) :
    Except PyError (List Process) := do
  let data ← data0.mapM reformatParamsProc
  let multioutput ← flagged.mapM (fun nb => do
    let p ← pyIdx data nb
    .ok (nb, p.exchanges.filter isProd))
  let data := multioutput.foldl (fun d kv =>
    match d.get? kv.1 with
    | some p => d.set kv.1 { p with exchanges := eraseAll p.exchanges kv.2 }
    | none => d) data
  let data ← multioutput.foldlM (fun d kv =>
    kv.2.foldlM (fun d2 pf => do
      let origin ← pyIdx d2 kv.1
      let na ← newActivityFor origin pf
      .ok (d2 ++ [na])) d) data
  let data ← (multioutput.map Prod.fst).foldlM
    (fun (st : List Process × Nat) key => do
      let target ← pyIdxI st.1 ((key : Int) - (st.2 : Int))
      .ok (st.1.erase target, st.2 + 1)) (data, 0)
  let data := data.1.mapIdx (fun n p => { p with code := some (fresh n) })
  data.mapM conformMetadataProc

/-! ## 4.5 Biosphere matcher (`matching_to_biosphere`) -/

/-- One record of the reference elementary-flow database
(`Database(self.biosphere_name)`).  `categories` is the brightway tuple
(one element when the subcompartment is unspecified). -/
structure BioFlow where
  name : PyStr
  categories : List PyStr
  code : PyStr
  deriving DecidableEq, Repr

/-- A record appended to `self.created_biosphere_flows`.  The source builds
two different dictionary shapes: `full` is
`{'exchange name', 'category', 'process name', 'amount'}` (lines 483-489,
492-497 and 537-542) and `short` is `{'name', 'origin', 'amount'}`
(lines 530-534). -/
inductive CreatedRecord where
  | full (exchange_name : PyStr) (category : PyStr × PyStr) (process_name : PyStr) (amount : ℚ)
  | short (name : PyStr) (origin : PyStr) (amount : ℚ)
  deriving DecidableEq, Repr

/-- The environment of `matching_to_biosphere`: the reference database, the
`Database(...).search` primitive, and the three JSON tables loaded at
`__init__` (compartment codes, subcompartment codes, and the
simapro-biosphere rename triples `(compartment, simapro name, new name)`). -/
structure BioCtx where
  biosphereName : PyStr
  ecoinventName : PyStr
  db : List BioFlow
  search : PyStr → List BioFlow
  comps : List (PyStr × PyStr)
  subcomps : List (PyStr × PyStr)
  spBioNames : List (PyStr × PyStr × PyStr)

/-- Lines 444-449: regionalized water flows are renamed to the default
water flow before lookup — `'Water'` when the top-level category is not
`'Resources'`, `'Water, unspecified natural origin'` when it is.  Any other
name is looked up unchanged (in particular, no country suffix is ever
stripped: the `self.countries` list loaded at `__init__` line 95-96 is never
consulted by this method). -/
def bioLookupName (name : PyStr) (cat0 : PyStr) : PyStr :=
  if pyStartsWith (pyStr "Water, ") name then
    if ¬ (cat0 = pyStr "Resources") then pyStr "Water"
    else pyStr "Water, unspecified natural origin"
  else name

/-- The per-exchange result of the biosphere matcher: the (possibly
linked) exchange, the value of the method-local `biosphere_code` variable
after the iteration, and the records appended to
`self.created_biosphere_flows`. -/
structure BioResult where
  exc : Exchange
  prev : Option PyStr
  created : List CreatedRecord
  deriving DecidableEq, Repr

/-- Lines 543-544: link the exchange to a found biosphere code and to its
owning process. -/
def bioLink (ctx : BioCtx) (procCode : Option PyStr) (e : Exchange) (code : PyStr) :
    Except PyError BioResult := do
  let pc ← pyKey procCode
  .ok ⟨{ e with input := some (ctx.biosphereName, code),
                output := some (ctx.ecoinventName, pc) }, some code, []⟩

/-- Method `matching_to_biosphere` (lines 437-544), body for one exchange.  `prev`
is the method-local variable `biosphere_code` as left by the previous
iterations (Python locals persist across loop iterations).  The resolution
order, identical in the unspecified- and specified-subcompartment branches
up to the category tuple and the shape of the diagnostic record:

1. direct lookup by `(name, categories)`;
2. on `IndexError`, when the name appears in the rename table: retrieve the
   new name (matching on translated compartment — an empty filter here is
   an uncaught `IndexError`), then fuzzy-search-narrowed lookup, full-table
   scan, and category-only scan;
3. on total miss, append the diagnostic record — and, the `continue`
   being absent, fall through to line 543 where `'input'` is assigned from
   the *stale* `biosphere_code` (a `NameError` when no earlier exchange
   ever assigned it);
4. when the name is not in the rename table, append the diagnostic record
   and `continue` (the exchange stays unlinked).

One hoisting: the source evaluates `self.comps[category[0]]` (and
`self.subcomps[category[1]]`) inside the comprehension predicates, behind a
short-circuiting `and`; this definition evaluates them once up front.  The
two differ only when the fixed compartment table lacks the category's key,
where the source would raise the same `KeyError` later (or, with no
name-matching record at all, not raise it). -/
def matchBioOne (ctx : BioCtx) (procName procCode : Option PyStr) (e : Exchange)
    (prev : Option PyStr) : Except PyError BioResult :=
  if e.input.isSome then .ok ⟨e, prev, []⟩
  else if ¬ (e.ty = pyStr "biosphere") then .ok ⟨e, prev, []⟩
  else do
    let category ← pyKey e.categories
    let name := bioLookupName e.name category.1
    let comp ← pyKey (dictGet ctx.comps category.1)
    let catT ←
      if category.2 = ([] : PyStr) then pure [comp]
      else do
        let sub ← pyKey (dictGet ctx.subcomps category.2)
        pure [comp, sub]
    match (ctx.db.filter (fun f => f.name = name ∧ f.categories = catT)).head? with
    | some f => bioLink ctx procCode e f.code
    | none =>
      if name ∈ ctx.spBioNames.map (fun t => t.2.1) then do
        let entry ← pyHead (ctx.spBioNames.filter (fun t => t.2.1 = name ∧ t.1 = comp))
        let real := entry.2.2
        match ((ctx.search real).filter (fun f => f.name = real ∧ f.categories = catT)).head? with
        | some f => bioLink ctx procCode e f.code
        | none =>
          match (ctx.db.filter (fun f => f.name = real ∧ f.categories = catT)).head? with
          | some f => bioLink ctx procCode e f.code
          | none =>
            match ((ctx.search name).filter (fun f => f.categories = catT)).head? with
            | some f => bioLink ctx procCode e f.code
            | none => do
              let r ←
                if category.2 = ([] : PyStr) then do
                  let pn ← pyKey procName
                  pure (CreatedRecord.full name category pn e.amount)
                else do
                  let pn ← pyKey procName
                  pure (CreatedRecord.short name pn e.amount)
              match prev with
              | none => .error .nameError
              | some c => do
                let pc ← pyKey procCode
                .ok ⟨{ e with input := some (ctx.biosphereName, c),
                              output := some (ctx.ecoinventName, pc) }, prev, [r]⟩
      else do
        let pn ← pyKey procName
        .ok ⟨e, prev, [.full name category pn e.amount]⟩

/-- The full double loop of `matching_to_biosphere`, threading the
method-local `biosphere_code` across all exchanges of all processes and
accumulating `self.created_biosphere_flows`. -/
def matchingToBiosphere (ctx : BioCtx) (data : List Process) :
    Except PyError (List Process × List CreatedRecord) := do
  let st ← data.foldlM
    (fun (st : List Process × Option PyStr × List CreatedRecord) p => do
      let res ← p.exchanges.foldlM
        (fun (st2 : List Exchange × Option PyStr × List CreatedRecord) e => do
          let r ← matchBioOne ctx p.name p.code e st2.2.1
          .ok (st2.1 ++ [r.exc], r.prev, st2.2.2 ++ r.created)) ([], st.2.1, st.2.2)
      .ok (st.1 ++ [{ p with exchanges := res.1 }], res.2.1, res.2.2)) ([], none, [])
  .ok (st.1, st.2.2)

/-! ## 4.4 Reference matcher (`matching_to_ecoinvent`) -/

/-- One record of the reference technosphere database
(`Database(self.ecoinvent_name)`): queryable name, reference product,
location, and the coded identity.  `str(act).split("'")[1].split("' ")[0]`
in the source extracts the activity's name from its brightway `repr`
(`'<name>' (<unit>, <location>, ...)`); it is modelled as the `name`
field. -/
structure Act where
  name : PyStr
  rp : PyStr
  loc : PyStr
  code : PyStr
  deriving DecidableEq, Repr

/-- The environment of `matching_to_ecoinvent`: the reference database, the
`Database(...).search(query, filter={'location': loc})` primitive, the
obsolete-process list loaded at `__init__`, and the project's own process
names (`self.project_activities`). -/
structure EcoCtx where
  ecoinventName : PyStr
  dbName : PyStr
  db : List Act
  search : PyStr → PyStr → List Act
  obsolete : List PyStr
  projectActivities : List PyStr

/-- A record appended to one of the three technosphere diagnostic buckets:
`{'name', 'origin', 'amount'}` (lines 209-226). -/
structure BucketRec where
  name : PyStr
  origin : PyStr
  amount : ℚ
  deriving DecidableEq, Repr

/-- Which diagnostic bucket a routed exchange lands in. -/
inductive BucketKind where
  | obsolete
  | system
  | onlySimapro
  deriving DecidableEq, Repr

/-- The effect of `matching_to_ecoinvent` on one exchange. -/
inductive EcoOutcome where
  | untouched
  | selfLinked (inp out : PyStr × PyStr)
  | bucketed (b : BucketKind) (r : BucketRec)
  | linked (inp out : PyStr × PyStr)
  | printed (name rp loc : PyStr) (i j : Nat)
  deriving DecidableEq, Repr

/-- Successful match: `exchange['output'] = (ecoinvent, own code)`;
`exchange['input'] = (ecoinvent, found code)` (e.g. lines 235-236). -/
def mkLink (ctx : EcoCtx) (procCode : Option PyStr) (a : Act) :
    Except PyError EcoOutcome := do
  let pc ← pyKey procCode
  .ok (.linked (ctx.ecoinventName, a.code) (ctx.ecoinventName, pc))

/-- Python `[...][0]` over a comprehension result followed by the link assignment:
`IndexError` when the comprehension is empty. -/
def headLink (ctx : EcoCtx) (procCode : Option PyStr) (l : List Act) :
    Except PyError EcoOutcome :=
  match l.head? with
  | some a => mkLink ctx procCode a
  | none => .error .indexError

/-- The two-step search shared by most cascade branches (e.g.
lines 231-245): a location-filtered `Database.search` narrowed by
case-insensitive name equality and, on `IndexError`, an unfiltered scan by
case-insensitive (name, reference product) equality and exact location;
an empty result there is an uncaught `IndexError`. -/
def twoStepSearch (ctx : EcoCtx) (procCode : Option PyStr) (nm rp loc : PyStr) :
    Except PyError EcoOutcome :=
  match ((ctx.search rp loc).filter (fun a => toLowerStr a.name = toLowerStr nm)).head? with
  | some a => mkLink ctx procCode a
  | none =>
    match (ctx.db.filter (fun a =>
        toLowerStr a.name = toLowerStr nm ∧ toLowerStr a.rp = toLowerStr rp ∧
        a.loc = loc)).head? with
    | some a => mkLink ctx procCode a
    | none => .error .indexError

/-- Python `''.join(s.split('production'))`. -/
def joinSplitProduction (s : PyStr) : PyStr := joinStr (pySplit (pyStr "production") s)

/-- Python `''.join(s.split('production')).lower().replace(' ', '')`. -/
def canonProd (s : PyStr) : PyStr := dropSpaces (toLowerStr (joinSplitProduction s))

/-- Python `s.lower().replace(' ', '')`. -/
def nospaceLower (s : PyStr) : PyStr := dropSpaces (toLowerStr s)

/-- Lines 426-428: the comprehension `[_ for _ in self.sp.data if
_['name'] == name]` — `_['name']` is read for every process, so a process
without a name raises `KeyError`. -/
def filterByName (data : List Process) (nm : PyStr) : Except PyError (List Process) :=
  data.foldlM (fun acc p => do
    let n ← pyKey p.name
    .ok (if n = nm then acc ++ [p] else acc)) []

/-- Method `matching_to_ecoinvent` (lines 193-428), body for the exchange at
coordinates `(i, j)`.  The guards and the decision cascade are reproduced
in source order:

* skip when `'input'` is already set or the kind is not
  technosphere/production;
* a name that is one of the project's own activities is self-linked
  (lines 424-428);
* otherwise the name must contain `'|'`, is parsed (lines 200-206, which
  can raise `IndexError` on a name that contains `'|'` but not the full
  `<product> {<location>}| <name>` grammar), and runs the cascade:
  obsolete-list routing, `'Cut-off, S'` routing, only-in-simapro routing,
  then the rewrite-and-search branches, each ending in an uncaught
  `IndexError` when its final scan is empty; the final `else` prints
  `(name, reference_product, location, i, j)` and continues. -/
def matchExchange (ctx : EcoCtx) (allData : List Process) (proc : Process)
    (i j : Nat) (e : Exchange) : Except PyError EcoOutcome :=
  if e.input.isSome then .ok .untouched
  else if ¬ (e.ty = pyStr "technosphere" ∨ e.ty = pyStr "production") then .ok .untouched
  else if e.name ∈ ctx.projectActivities then do
    let pc ← pyKey proc.code
    let found ← filterByName allData e.name
    let tgt ← pyHead found
    let tc ← pyKey tgt.code
    .ok (.selfLinked (ctx.dbName, tc) (ctx.ecoinventName, pc))
  else if ¬ (pyIn (pyStr "|") e.name = true) then .ok .untouched
  else do
    let pr ← parseSPName e.name
    let nm := pr.process_name
    let rp := pr.reference_product
    let loc := pr.location
    if e.name ∈ ctx.obsolete then do
      let orig ← pyKey proc.name
      .ok (.bucketed .obsolete ⟨e.name, orig, e.amount⟩)
    else if pyIn (pyStr "Cut-off, S") e.name then do
      let orig ← pyKey proc.name
      .ok (.bucketed .system ⟨e.name, orig, e.amount⟩)
    else if rp = pyStr "Diesel, burned in diesel-electric generating set" ∨
            rp = pyStr "Sulfidic tailing, off-site" ∨
            pyIn (pyStr "recycling of") nm then do
      let orig ← pyKey proc.name
      .ok (.bucketed .onlySimapro ⟨e.name, orig, e.amount⟩)
    else if nm = pyStr "market for" ∨ nm = pyStr "market group for" ∨
            nm = pyStr "treatment of" ∨
            pyEndsWith (pyStr " to generic market for") nm then
      twoStepSearch ctx proc.code (nm ++ [' '] ++ rp) rp loc
    else if pyIn (pyStr "treatment of,") nm then do
      let seg0 ← pyIdx (pySplit (pyStr ",") nm) 0
      let seg1 ← pyIdx (pySplit (pyStr ",") nm) 1
      twoStepSearch ctx proc.code (seg0 ++ [' '] ++ rp ++ [','] ++ seg1) rp loc
    else if nm = pyStr "diesel" ∧ pyIn (pyStr "ransport") rp then
      twoStepSearch ctx proc.code (rp ++ pyStr ", " ++ nm) rp loc
    else if nm = pyStr "construction" then
      headLink ctx proc.code ((ctx.search rp loc).filter (fun a => pyIn nm a.name))
    else if nm = pyStr "quarry operation" then
      twoStepSearch ctx proc.code (rp ++ [' '] ++ nm) rp loc
    else if nm = pyStr "processing" then
      headLink ctx proc.code (ctx.db.filter (fun a =>
        toLowerStr a.name = toLowerStr rp ∧ toLowerStr a.rp = toLowerStr rp ∧ a.loc = loc))
    else if nm = pyStr "gravel and quarry operation" then
      headLink ctx proc.code ((ctx.search rp loc).filter (fun a =>
        toLowerStr a.name = pyStr "gravel and sand quarry operation" ∧ a.rp = toLowerStr rp))
    else if pyIn (pyStr " in ") nm ∨ pyIn (pyStr " as ") nm ∨
            pyIn (pyStr " or ") rp ∨ pyIn (pyStr " from ") rp then
      headLink ctx proc.code (ctx.db.filter (fun a =>
        toLowerStr a.name = toLowerStr nm ∧ toLowerStr a.rp = toLowerStr rp ∧ a.loc = loc))
    else if ¬ (pyIn (pyStr "production") nm = true) then
      twoStepSearch ctx proc.code nm rp loc
    else if nm = pyStr "production" then
      if (pySplit (pyStr "production") rp).length = 1 then
        match ((ctx.search rp loc).filter (fun a =>
            canonProd a.name = nospaceLower rp)).head? with
        | some a => mkLink ctx proc.code a
        | none =>
          headLink ctx proc.code (ctx.db.filter (fun a =>
            nospaceLower rp = canonProd a.name ∧
            pyIn (toLowerStr nm) (toLowerStr a.name) ∧ a.loc = loc))
      else if 1 < (pySplit (pyStr "production") rp).length then
        headLink ctx proc.code (ctx.db.filter (fun a =>
          toLowerStr a.rp = toLowerStr rp ∧ a.loc = loc ∧ canonProd a.name = canonProd rp))
      else .ok .untouched
    else if pyStartsWith (pyStr "production") nm ∧ ¬ (nm = pyStr "production") then
      twoStepSearch ctx proc.code (rp ++ [' '] ++ nm) rp loc
    else if pyIn (pyStr "production") nm then
      twoStepSearch ctx proc.code nm rp loc
    else .ok (.printed nm rp loc i j)

/-! ## 4.6 Exchange pruner (`removing_unlinked_exchanges`) -/

/-- One inner pass (lines 555-561) over one process' exchange list:
`j` ranges over `range(0, len(...))` with the length read once at the pass'
start; an index that has become stale raises `IndexError`, which the
`except` turns into a skip; an exchange without `'input'` is removed with
`list.remove`, i.e. the *first equal* element is erased. -/
def prunePass (xs : List Exchange) : List Exchange :=
  (List.range xs.length).foldl (fun acc j =>
    match acc.get? j with
    | none => acc
    | some e => if e.input = none then acc.erase e else acc) xs

/-- Lines 553-561: the pass is repeated exactly 10 times over every
process. -/
def pruneAll (data : List Process) : List Process :=
  (List.range 10).foldl
    (fun d _ => d.map (fun p => { p with exchanges := prunePass p.exchanges })) data

/-- Lines 562-566: the verification scan, emitting the `(i, j)` coordinates
of every exchange still lacking `'input'` (each printed as
`"Warning: Issue with exchanges: i, j"`; nothing is removed). -/
def verifyScan (data : List Process) : List (Nat × Nat) :=
  ((List.range data.length).map (fun i =>
    match data.get? i with
    | none => []
    | some p => (List.range p.exchanges.length).filterMap (fun j =>
        match p.exchanges.get? j with
        | some e => if e.input = none then some (i, j) else none
        | none => none))).flatten

/-- Method `removing_unlinked_exchanges` (lines 546-566): 10 removal passes, then
the warning scan over the pruned data. -/
def removingUnlinkedExchanges (data : List Process) :
    List Process × List (Nat × Nat) :=
  (pruneAll data, verifyScan (pruneAll data))

end Simporter


namespace Simporter

/-! ### Fixtures used by witnesses and counterexamples -/

/-- A linked exchange fixture. -/
def fixLinkedExc : Exchange :=
  { name := pyStr "a", amount := 1, ty := pyStr "technosphere",
    input := some (pyStr "db", pyStr "c1") }

/-- An unlinked exchange fixture. -/
def fixUnlinkedExc : Exchange :=
  { name := pyStr "b", amount := 2, ty := pyStr "technosphere" }

/-- A process holding one linked and one unlinked exchange. -/
def fixPruneProc : Process := { exchanges := [fixLinkedExc, fixUnlinkedExc] }

/-- A process with an (empty) activity-parameter dictionary and a textual
allocation `"x"` that no parameter defines. -/
def fixAllocProc : Process :=
  { name := some (pyStr "joint"), parameters := some (.dictForm []),
    exchanges := [{ name := pyStr "out1", amount := 1, ty := pyStr "production",
                    allocation := some (.str (pyStr "x")) }] }

/-- Statement-side helper: the numeric value of an exchange's allocation,
when it has one. -/
def allocNum? (e : Exchange) : Option ℚ :=
  match e.allocation with
  | some (.num q) => some q
  | some (.str _) => none
  | none => none

/-- A stand-in for the `uuid.uuid4().hex` code generator. -/
def fixFresh : Nat → PyStr := fun _ => pyStr "code"

/-- A multi-output process whose two production exchanges carry *numeric*
allocation percentages (so the allocation stage never flags it). -/
def fixMultiProc : Process :=
  { name := some (pyStr "multi"), unit := some (pyStr "kg"), production_amount := some 1,
    exchanges :=
      [{ name := pyStr "out1", amount := 1, ty := pyStr "production",
         allocation := some (.num 60), unit := some (pyStr "kg") },
       { name := pyStr "out2", amount := 2, ty := pyStr "production",
         allocation := some (.num 40), unit := some (pyStr "kg") },
       { name := pyStr "in1", amount := 10, ty := pyStr "technosphere" }] }

/-- The loaded country list (`Data/list_of_countries.json`, `__init__`
lines 95-96).  `matching_to_biosphere` never consults it. -/
def fixCountries : List PyStr := [pyStr "FR", pyStr "DE"]

/-- A biosphere context whose reference list holds the flow `"Ammonia"`
(the name the claimed country-suffix stripping would produce). -/
def fixBioCtx : BioCtx :=
  { biosphereName := pyStr "biosphere3", ecoinventName := pyStr "ei",
    db := [{ name := pyStr "Ammonia", categories := [pyStr "air"], code := pyStr "B1" }],
    search := fun _ => [],
    comps := [(pyStr "Air", pyStr "air"), (pyStr "Resources", pyStr "natural resource")],
    subcomps := [],
    spBioNames := [] }

/-- A regionalized flow name in the older comma-suffix format. -/
def fixBioExcFR : Exchange :=
  { name := pyStr "Ammonia, FR", amount := 3, ty := pyStr "biosphere",
    categories := some (pyStr "Air", []) }

/-- A biosphere context holding the default unspecified-origin water flow. -/
def fixWaterCtx : BioCtx :=
  { biosphereName := pyStr "biosphere3", ecoinventName := pyStr "ei",
    db := [{ name := pyStr "Water, unspecified natural origin",
             categories := [pyStr "natural resource"], code := pyStr "W1" }],
    search := fun _ => [],
    comps := [(pyStr "Resources", pyStr "natural resource")],
    subcomps := [],
    spBioNames := [] }

/-- A regionalized water input from the `Resources` compartment. -/
def fixWaterExc : Exchange :=
  { name := pyStr "Water, river", amount := 5, ty := pyStr "biosphere",
    categories := some (pyStr "Resources", []) }

/-- A biosphere context where `"Old flow"` is in the rename table (new name
`"New flow"`) but neither name exists in the reference list: every lookup of
the rename cascade misses. -/
def fixBioRenCtx : BioCtx :=
  { biosphereName := pyStr "biosphere3", ecoinventName := pyStr "ei",
    db := [],
    search := fun _ => [],
    comps := [(pyStr "Air", pyStr "air")],
    subcomps := [(pyStr "low. pop.", pyStr "low population density")],
    spBioNames := [(pyStr "air", pyStr "Old flow", pyStr "New flow")] }

/-- The totally-missed biosphere exchange (specified subcompartment). -/
def fixBioRenExc : Exchange :=
  { name := pyStr "Old flow", amount := 7, ty := pyStr "biosphere",
    categories := some (pyStr "Air", pyStr "low. pop.") }

/-- A reference-matcher context with empty database and search results and
two obsolete names: one that is not `<product> {<location>}| <name>`
parseable, one that is. -/
def fixEcoCtx : EcoCtx :=
  { ecoinventName := pyStr "ei", dbName := pyStr "spdb",
    db := [],
    search := fun _ _ => [],
    obsolete := [pyStr "niche product| x", pyStr "Steel \x7bGLO\x7d| steel making"],
    projectActivities := [pyStr "own process"] }

/-- The owning process of the matched exchanges. -/
def fixEcoProc : Process := { name := some (pyStr "origin"), code := some (pyStr "pc") }

/-- An obsolete-listed exchange whose name contains `'|'` but not the full
grammar (no `' {'` location group). -/
def fixObsExc : Exchange :=
  { name := pyStr "niche product| x", amount := 4, ty := pyStr "technosphere" }

/-- An obsolete-listed exchange in the full grammar. -/
def fixObsParseExc : Exchange :=
  { name := pyStr "Steel \x7bGLO\x7d| steel making", amount := 9, ty := pyStr "technosphere" }

/-- A well-formed exchange that reaches the ordinary rewrite cascade. -/
def fixBranchExc : Exchange :=
  { name := pyStr "Widget \x7bGLO\x7d| widget work", amount := 2, ty := pyStr "technosphere" }

end Simporter

/-! # Theorems -/

namespace Simporter

/-- A fold preserves any invariant preserved by each step. -/
theorem foldl_preserves {α β : Type} {P : β → Prop} (f : β → α → β)
    (h : ∀ b a, P b → P (f b a)) : ∀ (l : List α) (b : β), P b → P (l.foldl f b)
  | [], _, hb => hb
  | a :: l, b, hb => foldl_preserves f h l (f b a) (h b a hb)

/-- One pruner pass only ever erases elements, so its result is a sublist of
its input. -/
theorem prunePass_sublist (xs : List Exchange) : List.Sublist (prunePass xs) xs := by
  unfold prunePass
  refine foldl_preserves (P := fun (acc : List Exchange) => List.Sublist acc xs) _ ?_ _ _
    (List.Sublist.refl xs)
  intro b a hb
  cases hget : b.get? a with
  | none => simpa [hget] using hb
  | some e =>
    by_cases hinp : e.input = none
    · simpa [hget, hinp] using (List.erase_sublist e b).trans hb
    · simpa [hget, hinp] using hb

/-- One pruner pass never removes an exchange that carries a resolved
`'input'` link: the multiset count of every linked exchange is preserved. -/
theorem prunePass_count (xs : List Exchange) (e : Exchange) (he : ¬ e.input = none) :
    (prunePass xs).count e = xs.count e := by
  unfold prunePass
  refine foldl_preserves (P := fun (acc : List Exchange) => acc.count e = xs.count e) _ ?_ _ _ rfl
  intro b a hb
  cases hget : b.get? a with
  | none => simpa [hget] using hb
  | some x =>
    by_cases hinp : x.input = none
    · have hne : e ≠ x := fun hex => he (hex ▸ hinp)
      simpa [hget, hinp, List.count_erase_of_ne hne] using hb
    · simpa [hget, hinp] using hb

/-- The ten passes preserve the process count and, per process, both the
sublist relation on exchanges and the count of every linked exchange. -/
theorem pruneAll_spec (data : List Process) :
    (pruneAll data).length = data.length ∧
    ∀ i p q, data.get? i = some p → (pruneAll data).get? i = some q →
      List.Sublist q.exchanges p.exchanges ∧
      ∀ e : Exchange, ¬ e.input = none → q.exchanges.count e = p.exchanges.count e := by
  unfold pruneAll
  have base : data.length = data.length ∧
      ∀ i p q, data.get? i = some p → data.get? i = some q →
        List.Sublist q.exchanges p.exchanges ∧
        ∀ e : Exchange, ¬ e.input = none → q.exchanges.count e = p.exchanges.count e := by
    refine ⟨rfl, ?_⟩
    intro i p q hp hq
    rw [hp] at hq
    cases hq
    exact ⟨List.Sublist.refl _, fun _ _ => rfl⟩
  refine foldl_preserves
    (P := fun (d : List Process) => d.length = data.length ∧
      ∀ i p q, data.get? i = some p → d.get? i = some q →
        List.Sublist q.exchanges p.exchanges ∧
        ∀ e : Exchange, ¬ e.input = none → q.exchanges.count e = p.exchanges.count e)
    _ ?_ _ _ base
  intro d _ hd
  obtain ⟨hlen, hptw⟩ := hd
  refine ⟨by simpa using hlen, ?_⟩
  intro i p q hp hq
  rw [List.get?_map] at hq
  cases hdi : d.get? i with
  | none => rw [hdi] at hq; cases hq
  | some q0 =>
    rw [hdi, Option.map_some'] at hq
    cases hq
    obtain ⟨hsub, hcnt⟩ := hptw i p q0 hp hdi
    exact ⟨(prunePass_sublist q0.exchanges).trans hsub,
      fun e he => (prunePass_count q0.exchanges e he).trans (hcnt e he)⟩

/-- Membership in the verification scan exactly characterizes the
coordinates of the exchanges still lacking a resolved link. -/
theorem mem_verifyScan (d : List Process) (i j : Nat) :
    (i, j) ∈ verifyScan d ↔
      ∃ p e, d.get? i = some p ∧ p.exchanges.get? j = some e ∧ e.input = none := by
  unfold verifyScan
  rw [List.mem_flatten]
  constructor
  · rintro ⟨s, hs, hmem⟩
    rw [List.mem_map] at hs
    obtain ⟨i', hi', rfl⟩ := hs
    cases hdi : d.get? i' with
    | none => rw [hdi] at hmem; cases hmem
    | some p =>
      rw [hdi] at hmem
      rw [List.mem_filterMap] at hmem
      obtain ⟨j', hj', hf⟩ := hmem
      cases hget : p.exchanges.get? j' with
      | none => rw [hget] at hf; cases hf
      | some e =>
        rw [hget] at hf
        by_cases hinp : e.input = none
        · rw [show (match some e with
                | some e => if e.input = none then some (i', j') else none
                | none => none) = if e.input = none then some (i', j') else none from rfl,
              if_pos hinp] at hf
          simp only [Option.some.injEq, Prod.mk.injEq] at hf
          obtain ⟨rfl, rfl⟩ := hf
          exact ⟨p, e, hdi, hget, hinp⟩
        · rw [show (match some e with
                | some e => if e.input = none then some (i', j') else none
                | none => none) = if e.input = none then some (i', j') else none from rfl,
              if_neg hinp] at hf
          cases hf
  · rintro ⟨p, e, hdi, hget, hinp⟩
    have hi : i < d.length := (List.get?_eq_some.mp hdi).choose
    have hj : j < p.exchanges.length := (List.get?_eq_some.mp hget).choose
    refine ⟨_, List.mem_map.mpr ⟨i, List.mem_range.mpr hi, rfl⟩, ?_⟩
    rw [hdi]
    rw [List.mem_filterMap]
    refine ⟨j, List.mem_range.mpr hj, ?_⟩
    rw [hget]
    rw [show (match some e with
          | some e => if e.input = none then some (i, j) else none
          | none => none) = if e.input = none then some (i, j) else none from rfl,
        if_pos hinp]

/-- C9 (confirmed): `removing_unlinked_exchanges` runs exactly 10 removal
passes (`pruneAll` folds over `List.range 10`); each pass removes only
exchanges lacking a resolved `'input'` link — every linked exchange
survives all passes unmodified (its per-process multiset count is
preserved, and the surviving exchange list is a sublist of the original
list, so nothing is added or altered); no process is removed; and the
verification scan that follows removes nothing and warns exactly at the
`(process, exchange)` coordinates of every exchange still lacking a
link. -/
theorem removing_unlinked_exchanges_spec (data : List Process) :
    (removingUnlinkedExchanges data).1.length = data.length ∧
    (∀ i p q, data.get? i = some p →
        (removingUnlinkedExchanges data).1.get? i = some q →
        List.Sublist q.exchanges p.exchanges ∧
        ∀ e : Exchange, ¬ e.input = none →
          q.exchanges.count e = p.exchanges.count e) ∧
    (removingUnlinkedExchanges data).2 = verifyScan (removingUnlinkedExchanges data).1 ∧
    (∀ i j, (i, j) ∈ (removingUnlinkedExchanges data).2 ↔
      ∃ p e, (removingUnlinkedExchanges data).1.get? i = some p ∧
        p.exchanges.get? j = some e ∧ e.input = none) := by
  obtain ⟨hlen, hptw⟩ := pruneAll_spec data
  exact ⟨hlen, hptw, rfl, fun i j => mem_verifyScan (pruneAll data) i j⟩

/-- Witness for C9 at a concrete two-exchange process: the linked exchange
survives the ten passes with its count preserved, and the warning-scan
characterization is instantiated at its coordinates. -/
theorem removing_unlinked_exchanges_spec_witness :
    List.count fixLinkedExc [fixLinkedExc] = List.count fixLinkedExc fixPruneProc.exchanges ∧
    ((0, 1) ∈ (removingUnlinkedExchanges [fixPruneProc]).2 ↔
      ∃ p e, (removingUnlinkedExchanges [fixPruneProc]).1.get? 0 = some p ∧
        p.exchanges.get? 1 = some e ∧ e.input = none) := by
  constructor
  · have h := (removing_unlinked_exchanges_spec [fixPruneProc]).2.1 0 fixPruneProc
      { fixPruneProc with exchanges := [fixLinkedExc] } (by decide) (by decide)
    exact h.2 fixLinkedExc (by decide)
  · exact (removing_unlinked_exchanges_spec [fixPruneProc]).2.2.2 0 1

/-- C5 (confirmed): parsing the composite exchange name
`"Steel, low-alloyed {RER}| steel production, converter, low-alloyed"`
yields reference product `"Steel, low-alloyed"`, location `"RER"` and
process name `"steel production, converter, low-alloyed"` as trimmed
strings, and the one post-parse normalization maps the location alias
`'WECC, US only'` to `'WECC'`. -/
theorem name_parser_roundtrip :
    parseSPName (pyStr "Steel, low-alloyed \x7bRER\x7d| steel production, converter, low-alloyed") =
      .ok { reference_product := pyStr "Steel, low-alloyed",
            process_name := pyStr "steel production, converter, low-alloyed",
            location := pyStr "RER" } ∧
    normalizeLocation (pyStr "WECC, US only") = pyStr "WECC" :=
  ⟨by decide, by decide⟩

end Simporter

namespace Simporter

/-- C2 (corrected): the per-exchange behavior of the allocation resolver.
A textual allocation is replaced by the amount of the parameter named by
its lowercased value, activity scope first and then the global scope;
`ValueError` is raised only when the owning process has *no* activity
parameter mapping at all and the name is not global; when the process has
an activity-parameter dictionary but the name is in neither scope, the
exchange is silently left textual (both guards fail and control falls
through); and whenever the whole stage returns successfully, the post
re-scan found zero remaining textual allocations. -/
theorem allocation_resolver_spec :
    (∀ (d : List (PyStr × ParamData)) (globals : GlobalParams) (exc : Exchange)
        (s : PyStr) (pd : ParamData),
        exc.allocation = some (.str s) →
        dictGet d (toLowerStr s) = some pd →
        resolveAllocExc (some (.dictForm d)) globals exc =
          .ok { exc with allocation := some (.num pd.amount) }) ∧
    (∀ (d : List (PyStr × ParamData)) (globals : GlobalParams) (exc : Exchange)
        (s : PyStr) (pd : ParamData),
        exc.allocation = some (.str s) →
        dictGet d (toLowerStr s) = none →
        dictGet globals (toLowerStr s) = some pd →
        resolveAllocExc (some (.dictForm d)) globals exc =
          .ok { exc with allocation := some (.num pd.amount) }) ∧
    (∀ (globals : GlobalParams) (exc : Exchange) (s : PyStr),
        exc.allocation = some (.str s) →
        dictGet globals (toLowerStr s) = none →
        resolveAllocExc none globals exc = .error .valueError) ∧
    (∀ (d : List (PyStr × ParamData)) (globals : GlobalParams) (exc : Exchange)
        (s : PyStr),
        exc.allocation = some (.str s) →
        dictGet d (toLowerStr s) = none →
        dictGet globals (toLowerStr s) = none →
        resolveAllocExc (some (.dictForm d)) globals exc = .ok exc) ∧
    (∀ (globals : GlobalParams) (data : List Process) (out : List Process × List Nat),
        dealingWithAllocation globals data = .ok out →
        collectFlagged out.1 = []) := by
  refine ⟨?_, ?_, ?_, ?_, ?_⟩
  · intro d globals exc s pd ha hd
    simp only [resolveAllocExc, ha, hd]
  · intro d globals exc s pd ha hd hg
    simp only [resolveAllocExc, ha, hd, hg]
  · intro globals exc s ha hg
    simp only [resolveAllocExc, ha, hg]
  · intro d globals exc s ha hd hg
    simp only [resolveAllocExc, ha, hd, hg]
  · intro globals data out h
    unfold dealingWithAllocation at h
    simp only [bind, Except.bind] at h
    cases hr : resolveFlagged globals data (collectFlagged data) with
    | error er => rw [hr] at h; cases h
    | ok data' =>
      rw [hr] at h
      dsimp only at h
      by_cases hc : collectFlagged data' = []
      · rw [if_pos hc] at h
        cases h
        exact hc
      · rw [if_neg hc] at h
        cases h

/-- Witness for C2's amended statement: the spec's own example — a textual
allocation `"Alloc_A"` resolved against an activity parameter `alloc_a`
with amount 60 becomes the numeric allocation 60 — plus the trivial
successful-stage instance of the post-condition. -/
theorem allocation_resolver_spec_witness :
    resolveAllocExc
        (some (.dictForm [(pyStr "alloc_a", { amount := 60, comment := [] })])) []
        { name := pyStr "p", amount := 1, ty := pyStr "production",
          allocation := some (.str (pyStr "Alloc_A")) } =
      .ok { name := pyStr "p", amount := 1, ty := pyStr "production",
            allocation := some (.num 60) } ∧
    collectFlagged ([] : List Process) = [] := by
  constructor
  · exact allocation_resolver_spec.1 [(pyStr "alloc_a", { amount := 60, comment := [] })] []
      { name := pyStr "p", amount := 1, ty := pyStr "production",
        allocation := some (.str (pyStr "Alloc_A")) }
      (pyStr "Alloc_A") { amount := 60, comment := [] } (by decide) (by decide)
  · exact allocation_resolver_spec.2.2.2.2 [] [] ([], []) (by decide)

/-- C2 counterexample: `fixAllocProc` has an activity-parameter dictionary
(empty) and a textual allocation `"x"` defined in neither scope.  The claim
says the stage raises `ValueError`; the code instead leaves the field
textual and dies on the post-scan `assert` (an `AssertionError`). -/
theorem allocation_resolver_counterexample :
    dealingWithAllocation [] [fixAllocProc] = .error .assertionError ∧
    ¬ dealingWithAllocation [] [fixAllocProc] = .error .valueError :=
  ⟨by decide, by decide⟩

end Simporter

namespace Simporter

/-- Bind of a success value in the `Except` monad. -/
theorem exceptBind_ok {α β : Type} (a : α) (k : α → Except PyError β) :
    (Except.ok a >>= k) = k a := rfl

/-- Bind of an error value in the `Except` monad. -/
theorem exceptBind_error {α β : Type} (e : PyError) (k : α → Except PyError β) :
    ((Except.error e : Except PyError α) >>= k) = .error e := rfl

/-- Mapping over `Except` with a function that succeeds uniformly. -/
theorem mapM_ok_of_fn {α β : Type} (f : α → Except PyError β) (g : α → β)
    (hf : ∀ a, f a = .ok (g a)) : ∀ l : List α, l.mapM f = .ok (l.map g)
  | [] => rfl
  | a :: l => by
    rw [List.mapM_cons, hf a, mapM_ok_of_fn f g hf l]
    rfl

/-- Mapping over `Except` with a function that succeeds pointwise on a list,
with a relational description of each output. -/
theorem mapM_ok_of_forall {α β : Type} (f : α → Except PyError β) (R : α → β → Prop) :
    ∀ l : List α, (∀ a ∈ l, ∃ b, f a = .ok b ∧ R a b) →
      ∃ bs, l.mapM f = .ok bs ∧ List.Forall₂ R l bs
  | [], _ => ⟨[], rfl, List.Forall₂.nil⟩
  | a :: l, h => by
    obtain ⟨b, hb, hr⟩ := h a (List.mem_cons_self a l)
    obtain ⟨bs, hbs, hf2⟩ :=
      mapM_ok_of_forall f R l (fun a' ha' => h a' (List.mem_cons_of_mem a ha'))
    refine ⟨b :: bs, ?_, List.Forall₂.cons hr hf2⟩
    rw [List.mapM_cons, hb, hbs]
    rfl

/-- Scaling by a numeric allocation always succeeds and multiplies the
amount by `allocation / 100`. -/
theorem scaleExchange_ok (pf : Exchange) (q : ℚ)
    (halloc : pf.allocation = some (.num q)) (a : Exchange) :
    scaleExchange pf a = .ok { a with amount := a.amount * (q / 100) } := by
  simp only [scaleExchange, halloc]
  rfl

/-- The new activity created for a production flow with a numeric
allocation and a `'unit'` key: metadata from the flow, every exchange of
the stripped origin scaled, and — the append being dead code — no
production exchange added. -/
theorem newActivityFor_ok (origin : Process) (pf : Exchange) (q : ℚ) (u : PyStr)
    (halloc : pf.allocation = some (.num q)) (hunit : pf.unit = some u) :
    newActivityFor origin pf = .ok
      { origin with
        name := some pf.name
        reference_product := some pf.name
        production_amount := some pf.amount
        exchanges := origin.exchanges.map
          (fun e => { e with amount := e.amount * (q / 100) }) } := by
  have happ : ∀ exs : List Exchange, appendProdExchange pf exs = .ok exs := by
    intro exs
    simp only [appendProdExchange, hunit]
  unfold newActivityFor
  rw [mapM_ok_of_fn (scaleExchange pf) (fun e => { e with amount := e.amount * (q / 100) })
      (scaleExchange_ok pf q halloc) origin.exchanges]
  rw [exceptBind_ok]
  rw [happ]
  rfl

/-- Scaling does not change an exchange's type, so a production-free list
stays production-free. -/
theorem filter_isProd_map_scale (l : List Exchange) (q : ℚ)
    (h : l.filter isProd = []) :
    (l.map (fun e => { e with amount := e.amount * (q / 100) })).filter isProd = [] := by
  rw [List.filter_map]
  rw [show l.filter (isProd ∘ (fun e => { e with amount := e.amount * (q / 100) })) =
      l.filter isProd from List.filter_congr (fun a _ => rfl)]
  rw [h]
  rfl

/-- The repair step (lines 774-791) on a named, production-free process:
only the synthesized production exchange is appended. -/
theorem conformMetadata_decomposed (na : Process) (nm : PyStr) (amt : ℚ)
    (hname : na.name = some nm) (hpa : na.production_amount = some amt)
    (hfilter : na.exchanges.filter isProd = []) :
    conformMetadataProc na =
      .ok { na with exchanges := na.exchanges ++ [synthExchange nm amt] } := by
  unfold conformMetadataProc
  rw [if_neg (show ¬ na.name = none from by rw [hname]; intro h; cases h)]
  rw [exceptBind_ok]
  dsimp only
  rw [if_pos hfilter]
  rw [hname, hpa]
  rfl

/-- Python `list.remove`, repeated over exactly the elements some predicate
selects, leaves exactly the elements it rejects. -/
theorem eraseAll_cons_of_ne {α : Type} [DecidableEq α] (x : α) :
    ∀ (l rest : List α), (∀ v ∈ l, ¬ v = x) →
      eraseAll (x :: rest) l = x :: eraseAll rest l
  | [], _, _ => rfl
  | v :: l, rest, h => by
    have hvx : ¬ v = x := h v (List.mem_cons_self v l)
    have hbeq : ¬ ((x == v) = true) := by
      simp only [beq_iff_eq]
      exact fun hh => hvx hh.symm
    show eraseAll ((x :: rest).erase v) l = x :: eraseAll (rest.erase v) l
    rw [List.erase_cons_tail hbeq]
    exact eraseAll_cons_of_ne x l (rest.erase v)
      (fun w hw => h w (List.mem_cons_of_mem v hw))

/-- Removing, in order, every element that a predicate selects from a list
(the production-flow removal of lines 728-730) leaves the elements the
predicate rejects, in order. -/
theorem eraseAll_filter {α : Type} [DecidableEq α] (p : α → Bool) :
    ∀ xs : List α, eraseAll xs (xs.filter p) = xs.filter (fun a => ! p a)
  | [] => rfl
  | x :: rest => by
    by_cases hp : p x = true
    · rw [List.filter_cons_of_pos hp]
      show eraseAll ((x :: rest).erase x) (rest.filter p) =
        (x :: rest).filter (fun a => ! p a)
      rw [List.erase_cons_head]
      rw [List.filter_cons_of_neg (by simp [hp])]
      exact eraseAll_filter p rest
    · rw [List.filter_cons_of_neg (by simpa using hp)]
      rw [eraseAll_cons_of_ne x (rest.filter p) rest
        (fun v hv hvx => hp (hvx ▸ (List.mem_filter.mp hv).2))]
      rw [List.filter_cons_of_pos (by simpa using hp)]
      rw [eraseAll_filter p rest]

/-- Extract the numeric allocation from the decidable `allocNum?` guard. -/
theorem allocNum?_isSome {e : Exchange} (h : (allocNum? e).isSome = true) :
    ∃ q, e.allocation = some (.num q) := by
  unfold allocNum? at h
  cases ha : e.allocation with
  | none => rw [ha] at h; cases h
  | some v =>
    cases v with
    | num q => exact ⟨q, rfl⟩
    | str s => rw [ha] at h; cases h

end Simporter

namespace Simporter

/-- C10 (confirmed): the copied production exchange is never successfully
appended during decomposition.  When the production flow has a `'unit'` key
the `append` (which sits inside the `except KeyyError` handler) is dead and
the exchange list is returned unchanged; when it lacks a `'unit'` key the
handler's undefined exception name crashes the run (`NameError`).
Consequently a new single-output activity built from a production-free
origin reaches the repair step with zero production exchanges and receives
exactly the synthesized production exchange carrying just name, amount and
type. -/
theorem production_append_dead :
    (∀ (pf : Exchange) (u : PyStr) (exs : List Exchange), pf.unit = some u →
        appendProdExchange pf exs = .ok exs) ∧
    (∀ (pf : Exchange) (exs : List Exchange), pf.unit = none →
        appendProdExchange pf exs = .error .nameError) ∧
    (∀ (origin : Process) (pf : Exchange) (q : ℚ) (u : PyStr),
        pf.allocation = some (.num q) → pf.unit = some u →
        origin.exchanges.filter isProd = [] →
        ∃ na, newActivityFor origin pf = .ok na ∧
          na.name = some pf.name ∧
          na.exchanges.filter isProd = [] ∧
          conformMetadataProc na =
            .ok { na with exchanges := na.exchanges ++ [synthExchange pf.name pf.amount] } ∧
          (na.exchanges ++ [synthExchange pf.name pf.amount]).filter isProd =
            [synthExchange pf.name pf.amount]) := by
  refine ⟨?_, ?_, ?_⟩
  · intro pf u exs h
    simp only [appendProdExchange, h]
  · intro pf exs h
    simp only [appendProdExchange, h]
  · intro origin pf q u halloc hunit hfilter
    have hsc : (origin.exchanges.map
        (fun e => { e with amount := e.amount * (q / 100) })).filter isProd = [] :=
      filter_isProd_map_scale origin.exchanges q hfilter
    refine ⟨_, newActivityFor_ok origin pf q u halloc hunit, rfl, hsc, ?_, ?_⟩
    · exact conformMetadata_decomposed _ pf.name pf.amount rfl rfl hsc
    · rw [List.filter_append, hsc]
      rfl

/-- Witness for C10: the two `appendProdExchange` behaviors at concrete
production flows, and the decomposition-plus-repair consequence at the
first output of `fixMultiProc`. -/
theorem production_append_dead_witness :
    appendProdExchange
        { name := pyStr "out1", amount := 1, ty := pyStr "production",
          allocation := some (.num 60), unit := some (pyStr "kg") } [] = .ok [] ∧
    appendProdExchange
        { name := pyStr "out1", amount := 1, ty := pyStr "production" } [] =
      .error .nameError := by
  constructor
  · exact production_append_dead.1
      { name := pyStr "out1", amount := 1, ty := pyStr "production",
        allocation := some (.num 60), unit := some (pyStr "kg") }
      (pyStr "kg") [] (by decide)
  · exact production_append_dead.2.1
      { name := pyStr "out1", amount := 1, ty := pyStr "production" } [] (by decide)

/-- C1 counterexample: `fixMultiProc` has two production exchanges but a
numeric allocation, so the allocation stage flags nothing and
`conform_data_to_brightway_format` does not decompose it: the result is
still one process carrying two production exchanges, not two single-output
processes. -/
theorem multioutput_decomposer_counterexample :
    collectFlagged [fixMultiProc] = [] ∧
    dealingWithAllocation [] [fixMultiProc] = .ok ([fixMultiProc], []) ∧
    conformData fixFresh [fixMultiProc] [] =
      .ok [{ fixMultiProc with code := some (pyStr "code") }] ∧
    (({ fixMultiProc with code := some (pyStr "code") } : Process).exchanges.filter
        isProd).length = 2 :=
  ⟨by decide, by decide, by decide, by decide⟩

/-- C1 (corrected): decomposition applies to the processes flagged by the
allocation stage (`self.allocation_with_parameters`), not to every process
with K ≥ 2 production exchanges.  For a flagged process whose production
flows carry a `'unit'` key and numeric allocations, the decomposition loop
produces exactly K new activities — one per production flow, in order —
whose exchange lists are the original non-production exchanges with each
amount multiplied by that flow's allocation / 100, and which, after the
repair step, hold exactly one production exchange (the synthesized one). -/
theorem multioutput_decomposer_spec (proc : Process)
    (hK : 2 ≤ (proc.exchanges.filter isProd).length)
    (hflows : ∀ pf ∈ proc.exchanges.filter isProd,
      pf.unit.isSome = true ∧ (allocNum? pf).isSome = true) :
    ({ proc with exchanges := eraseAll proc.exchanges (proc.exchanges.filter isProd) }
        : Process).exchanges = proc.exchanges.filter (fun e => ! isProd e) ∧
    ∃ newActs,
      (proc.exchanges.filter isProd).mapM
          (newActivityFor { proc with
            exchanges := eraseAll proc.exchanges (proc.exchanges.filter isProd) }) =
        .ok newActs ∧
      newActs.length = (proc.exchanges.filter isProd).length ∧
      List.Forall₂ (fun pf na => ∃ q,
          pf.allocation = some (.num q) ∧
          na.exchanges = (proc.exchanges.filter (fun e => ! isProd e)).map
            (fun e => { e with amount := e.amount * (q / 100) }) ∧
          na.exchanges.filter isProd = [] ∧
          conformMetadataProc na =
            .ok { na with exchanges := na.exchanges ++ [synthExchange pf.name pf.amount] } ∧
          (na.exchanges ++ [synthExchange pf.name pf.amount]).filter isProd =
            [synthExchange pf.name pf.amount])
        (proc.exchanges.filter isProd) newActs := by
  have hbase : ({ proc with
      exchanges := eraseAll proc.exchanges (proc.exchanges.filter isProd) }
        : Process).exchanges = proc.exchanges.filter (fun e => ! isProd e) :=
    eraseAll_filter isProd proc.exchanges
  refine ⟨hbase, ?_⟩
  have hbf : (proc.exchanges.filter (fun e => ! isProd e)).filter isProd = [] := by
    rw [List.filter_filter]
    apply List.filter_eq_nil_iff.mpr
    intro a _
    simp
  have hpoint : ∀ pf ∈ proc.exchanges.filter isProd, ∃ na,
      newActivityFor { proc with
        exchanges := eraseAll proc.exchanges (proc.exchanges.filter isProd) } pf = .ok na ∧
      ∃ q, pf.allocation = some (.num q) ∧
        na.exchanges = (proc.exchanges.filter (fun e => ! isProd e)).map
          (fun e => { e with amount := e.amount * (q / 100) }) ∧
        na.exchanges.filter isProd = [] ∧
        conformMetadataProc na =
          .ok { na with exchanges := na.exchanges ++ [synthExchange pf.name pf.amount] } ∧
        (na.exchanges ++ [synthExchange pf.name pf.amount]).filter isProd =
          [synthExchange pf.name pf.amount] := by
    clear hK
    intro pf hpf
    obtain ⟨hu, hq⟩ := hflows pf hpf
    obtain ⟨u, hu⟩ := Option.isSome_iff_exists.mp hu
    obtain ⟨q, hq⟩ := allocNum?_isSome hq
    have hsc : ((proc.exchanges.filter (fun e => ! isProd e)).map
        (fun e => { e with amount := e.amount * (q / 100) })).filter isProd = [] :=
      filter_isProd_map_scale _ q hbf
    refine ⟨_, newActivityFor_ok _ pf q u hq hu, q, hq, ?_, ?_, ?_, ?_⟩
    · show ({ proc with
        exchanges := eraseAll proc.exchanges (proc.exchanges.filter isProd) }
          : Process).exchanges.map _ = _
      rw [hbase]
    · show (({ proc with
        exchanges := eraseAll proc.exchanges (proc.exchanges.filter isProd) }
          : Process).exchanges.map _).filter isProd = []
      rw [hbase]
      exact hsc
    · refine conformMetadata_decomposed _ pf.name pf.amount rfl rfl ?_
      show (({ proc with
        exchanges := eraseAll proc.exchanges (proc.exchanges.filter isProd) }
          : Process).exchanges.map _).filter isProd = []
      rw [hbase]
      exact hsc
    · rw [List.filter_append]
      rw [show (({ proc with
          exchanges := eraseAll proc.exchanges (proc.exchanges.filter isProd) }
            : Process).exchanges.map
          (fun e => { e with amount := e.amount * (q / 100) })).filter isProd = []
        from by rw [hbase]; exact hsc]
      rfl
  obtain ⟨newActs, hmap, hf2⟩ := mapM_ok_of_forall _ _ (proc.exchanges.filter isProd)
    (fun pf hpf => (hpoint pf hpf).imp (fun na h => ⟨h.1, h.2⟩))
  exact ⟨newActs, hmap, hf2.length_eq.symm, hf2⟩

/-- Witness for C1's amended statement: the decomposition of `fixMultiProc`
pretending it had been flagged — its stripped exchange list is exactly its
non-production exchanges. -/
theorem multioutput_decomposer_spec_witness :
    ({ fixMultiProc with
        exchanges := eraseAll fixMultiProc.exchanges
          (fixMultiProc.exchanges.filter isProd) } : Process).exchanges =
      fixMultiProc.exchanges.filter (fun e => ! isProd e) :=
  (multioutput_decomposer_spec fixMultiProc (by decide) (by decide)).1

end Simporter

namespace Simporter

/-- C3 (code_bug): on a total rename-table miss the matcher does *not*
leave the exchange unresolved.  The `continue` is missing after the
diagnostic append (lines 530-534), so control falls through to line 543 and
assigns `exchange['input']` from the stale method-local `biosphere_code`:
with an earlier resolved code `"stale"` the exchange is linked to that
unrelated flow (and the appended record is the `{'name','origin','amount'}`
shape, without the category the claim requires); when no exchange was
resolved before, the run dies with `NameError` instead. -/
theorem biosphere_total_miss_bug :
    matchBioOne fixBioRenCtx (some (pyStr "origin")) (some (pyStr "pc"))
        fixBioRenExc (some (pyStr "stale")) =
      .ok { exc := { fixBioRenExc with
                     input := some (pyStr "biosphere3", pyStr "stale")
                     output := some (pyStr "ei", pyStr "pc") },
            prev := some (pyStr "stale"),
            created := [.short (pyStr "Old flow") (pyStr "origin") 7] } ∧
    matchBioOne fixBioRenCtx (some (pyStr "origin")) (some (pyStr "pc"))
        fixBioRenExc none =
      .error .nameError :=
  ⟨by decide, by decide⟩

/-- C4 counterexample: `"FR"` is a known country and the stripped name
`"Ammonia"` exists in the reference list with the right category, yet the
matcher resolves nothing for `"Ammonia, FR"`: the exchange stays unlinked
and lands in the created-flows bucket under its *unstripped* name — no
country-suffix stripping is performed. -/
theorem biosphere_country_suffix_counterexample :
    pyStr "FR" ∈ fixCountries ∧
    (fixBioCtx.db.filter (fun f => f.name = pyStr "Ammonia" ∧
      f.categories = [pyStr "air"])).length = 1 ∧
    matchBioOne fixBioCtx (some (pyStr "origin")) (some (pyStr "pc")) fixBioExcFR none =
      .ok { exc := fixBioExcFR, prev := none,
            created := [.full (pyStr "Ammonia, FR") (pyStr "Air", []) (pyStr "origin") 3] } :=
  ⟨by decide, by decide, by decide⟩

/-- C4 (corrected): the biosphere matcher performs no country-suffix
stripping — apart from the water special case, the lookup name is the
exchange name unchanged.  (The countries list is loaded at `__init__` but
never consulted by `matching_to_biosphere`.) -/
theorem biosphere_no_country_stripping (name cat0 : PyStr)
    (h : ¬ pyStartsWith (pyStr "Water, ") name = true) :
    bioLookupName name cat0 = name := by
  unfold bioLookupName
  rw [if_neg h]

/-- Witness for C4's amended statement at the regionalized ammonia flow. -/
theorem biosphere_no_country_stripping_witness :
    bioLookupName (pyStr "Ammonia, FR") (pyStr "Air") = pyStr "Ammonia, FR" :=
  biosphere_no_country_stripping (pyStr "Ammonia, FR") (pyStr "Air") (by decide)

/-- C8 (confirmed): a biosphere name starting with `"Water, "` is rewritten
to `"Water, unspecified natural origin"` when the top-level category is
`'Resources'` and to `"Water"` otherwise, the regional qualifier being
discarded; and the concrete exchange `"Water, river"` with top-level
category `"Resources"` is looked up and resolved under
`"Water, unspecified natural origin"`. -/
theorem biosphere_water_normalization :
    (∀ name cat0 : PyStr, pyStartsWith (pyStr "Water, ") name = true →
        bioLookupName name cat0 =
          if cat0 = pyStr "Resources" then pyStr "Water, unspecified natural origin"
          else pyStr "Water") ∧
    matchBioOne fixWaterCtx (some (pyStr "origin")) (some (pyStr "pc")) fixWaterExc none =
      .ok { exc := { fixWaterExc with
                     input := some (pyStr "biosphere3", pyStr "W1")
                     output := some (pyStr "ei", pyStr "pc") },
            prev := some (pyStr "W1"),
            created := [] } := by
  constructor
  · intro name cat0 h
    by_cases hc : cat0 = pyStr "Resources" <;> simp [bioLookupName, h, hc]
  · decide

/-- Witness for C8's universally quantified water rule at the river flow. -/
theorem biosphere_water_normalization_witness :
    bioLookupName (pyStr "Water, river") (pyStr "Resources") =
      pyStr "Water, unspecified natural origin" := by
  have h := biosphere_water_normalization.1 (pyStr "Water, river") (pyStr "Resources")
    (by decide)
  rw [h, if_pos rfl]

end Simporter

namespace Simporter

/-- C6 counterexample: an exchange whose name contains `'|'` and is listed
obsolete, yet is not `<product> {<location>}| <name>` parseable — the parse
(lines 200-206) runs *before* the obsolete check and raises `IndexError`,
so the exchange never reaches the obsolete bucket. -/
theorem obsolete_routing_counterexample :
    pyIn (pyStr "|") fixObsExc.name = true ∧
    fixObsExc.name ∈ fixEcoCtx.obsolete ∧
    matchExchange fixEcoCtx [] fixEcoProc 0 0 fixObsExc = .error .indexError :=
  ⟨by decide, by decide, by decide⟩

/-- C6 (corrected): for every still-unlinked technosphere/production
exchange whose name is not a project process name, contains the delimiter
*and parses* (the parse precedes the routing and aborts on a malformed
name), exact membership in the obsolete list routes the exchange to the
obsolete bucket as `{name, origin, amount}`, with no link set — and this
holds whatever the rest of the name or the context contains, i.e. before
every later cascade rule (`'Cut-off, S'` included). -/
theorem obsolete_routing_spec (ctx : EcoCtx) (allData : List Process) (proc : Process)
    (i j : Nat) (e : Exchange) (orig : PyStr) (pr : ParsedName)
    (hinp : e.input = none)
    (hty : e.ty = pyStr "technosphere" ∨ e.ty = pyStr "production")
    (hproj : ¬ e.name ∈ ctx.projectActivities)
    (hpipe : pyIn (pyStr "|") e.name = true)
    (hparse : parseSPName e.name = .ok pr)
    (hobs : e.name ∈ ctx.obsolete)
    (hname : proc.name = some orig) :
    matchExchange ctx allData proc i j e =
      .ok (.bucketed .obsolete ⟨e.name, orig, e.amount⟩) := by
  unfold matchExchange
  rw [if_neg (show ¬ e.input.isSome = true from by simp [hinp])]
  rw [if_neg (not_not_intro hty)]
  rw [if_neg hproj]
  rw [if_neg (not_not_intro hpipe)]
  rw [hparse, exceptBind_ok]
  dsimp only
  rw [if_pos hobs]
  rw [hname]
  rfl

/-- Witness for C6's amended statement: the parseable obsolete name is
routed to the bucket even though its context could later match other
rules. -/
theorem obsolete_routing_spec_witness :
    matchExchange fixEcoCtx [] fixEcoProc 0 0 fixObsParseExc =
      .ok (.bucketed .obsolete ⟨pyStr "Steel \x7bGLO\x7d| steel making", pyStr "origin", 9⟩) :=
  obsolete_routing_spec fixEcoCtx [] fixEcoProc 0 0 fixObsParseExc (pyStr "origin")
    { reference_product := pyStr "Steel", process_name := pyStr "steel making",
      location := pyStr "GLO" }
    (by decide) (by decide) (by decide) (by decide) (by decide) (by decide) (by decide)

/-- Indexing via `pyIdx` only ever fails with `IndexError`. -/
theorem pyIdx_error {α : Type} {l : List α} {i : Nat} {er : PyError}
    (h : pyIdx l i = .error er) : er = .indexError := by
  unfold pyIdx at h
  cases hg : l.get? i <;> rw [hg] at h <;> cases h <;> rfl

/-- A Python `split` never returns an empty list. -/
theorem pySplit_ne_nil (sep s : PyStr) : ¬ pySplit sep s = [] := by
  unfold pySplit pySplitF
  split <;> intro h <;> cases h

end Simporter

namespace Simporter

/-- C7 (confirmed): inside every rewrite branch of the matching cascade, an
empty search result at the branch's final fallback scan propagates to the
caller as an uncaught `IndexError` — with an empty reference database and
empty search results, *every* exchange that reaches the cascade past the
three bucket-routing rules ends in `.error .indexError`, whichever branch
its name selects (in particular the no-rule-matched `print`-and-continue
arm, which only reports `(name, reference product, location, i, j)` and
sets no link, is never the outcome). -/
theorem branch_miss_fatal (ctx : EcoCtx) (allData : List Process) (proc : Process)
    (i j : Nat) (e : Exchange) (pr : ParsedName)
    (hdb : ctx.db = [])
    (hsearch : ∀ q l, ctx.search q l = [])
    (hinp : e.input = none)
    (hty : e.ty = pyStr "technosphere" ∨ e.ty = pyStr "production")
    (hproj : ¬ e.name ∈ ctx.projectActivities)
    (hpipe : pyIn (pyStr "|") e.name = true)
    (hparse : parseSPName e.name = .ok pr)
    (hobs : ¬ e.name ∈ ctx.obsolete)
    (hcut : ¬ pyIn (pyStr "Cut-off, S") e.name = true)
    (honly : ¬ (pr.reference_product = pyStr "Diesel, burned in diesel-electric generating set" ∨
      pr.reference_product = pyStr "Sulfidic tailing, off-site" ∨
      pyIn (pyStr "recycling of") pr.process_name = true)) :
    matchExchange ctx allData proc i j e = .error .indexError := by
  have h2 : ∀ (pc : Option PyStr) (nm rp loc : PyStr),
      twoStepSearch ctx pc nm rp loc = .error .indexError := by
    intro pc nm rp loc
    unfold twoStepSearch
    rw [hsearch, hdb]
    rfl
  unfold matchExchange
  rw [if_neg (show ¬ e.input.isSome = true from by simp [hinp])]
  rw [if_neg (not_not_intro hty)]
  rw [if_neg hproj]
  rw [if_neg (not_not_intro hpipe)]
  rw [hparse, exceptBind_ok]
  dsimp only
  rw [if_neg hobs, if_neg hcut, if_neg honly]
  by_cases g4 : pr.process_name = pyStr "market for" ∨
      pr.process_name = pyStr "market group for" ∨
      pr.process_name = pyStr "treatment of" ∨
      pyEndsWith (pyStr " to generic market for") pr.process_name = true
  · rw [if_pos g4]
    exact h2 _ _ _ _
  rw [if_neg g4]
  by_cases g5 : pyIn (pyStr "treatment of,") pr.process_name = true
  · rw [if_pos g5]
    cases h0 : pyIdx (pySplit (pyStr ",") pr.process_name) 0 with
    | error er => rw [exceptBind_error, pyIdx_error h0]
    | ok seg0 =>
      rw [exceptBind_ok]
      cases h1 : pyIdx (pySplit (pyStr ",") pr.process_name) 1 with
      | error er => rw [exceptBind_error, pyIdx_error h1]
      | ok seg1 =>
        rw [exceptBind_ok]
        exact h2 _ _ _ _
  rw [if_neg g5]
  by_cases g6 : pr.process_name = pyStr "diesel" ∧
      pyIn (pyStr "ransport") pr.reference_product = true
  · rw [if_pos g6]
    exact h2 _ _ _ _
  rw [if_neg g6]
  by_cases g7 : pr.process_name = pyStr "construction"
  · rw [if_pos g7, hsearch]
    rfl
  rw [if_neg g7]
  by_cases g8 : pr.process_name = pyStr "quarry operation"
  · rw [if_pos g8]
    exact h2 _ _ _ _
  rw [if_neg g8]
  by_cases g9 : pr.process_name = pyStr "processing"
  · rw [if_pos g9, hdb]
    rfl
  rw [if_neg g9]
  by_cases g10 : pr.process_name = pyStr "gravel and quarry operation"
  · rw [if_pos g10, hsearch]
    rfl
  rw [if_neg g10]
  by_cases g11 : pyIn (pyStr " in ") pr.process_name = true ∨
      pyIn (pyStr " as ") pr.process_name = true ∨
      pyIn (pyStr " or ") pr.reference_product = true ∨
      pyIn (pyStr " from ") pr.reference_product = true
  · rw [if_pos g11, hdb]
    rfl
  rw [if_neg g11]
  by_cases g12 : ¬ pyIn (pyStr "production") pr.process_name = true
  · rw [if_pos g12]
    exact h2 _ _ _ _
  rw [if_neg g12]
  have gin : pyIn (pyStr "production") pr.process_name = true := not_not.mp g12
  by_cases g13 : pr.process_name = pyStr "production"
  · rw [if_pos g13]
    by_cases glen : (pySplit (pyStr "production") pr.reference_product).length = 1
    · rw [if_pos glen, hsearch, hdb]
      rfl
    · rw [if_neg glen]
      by_cases glt : 1 < (pySplit (pyStr "production") pr.reference_product).length
      · rw [if_pos glt, hdb]
        rfl
      · exfalso
        have hlen : 0 < (pySplit (pyStr "production") pr.reference_product).length :=
          List.length_pos.mpr (pySplit_ne_nil (pyStr "production") pr.reference_product)
        omega
  rw [if_neg g13]
  by_cases g14 : pyStartsWith (pyStr "production") pr.process_name = true ∧
      ¬ pr.process_name = pyStr "production"
  · rw [if_pos g14]
    exact h2 _ _ _ _
  rw [if_neg g14]
  rw [if_pos gin]
  exact h2 _ _ _ _

/-- Witness for C7 at a concrete cascade exchange (`"Widget {GLO}| widget
work"` reaches the plain two-step branch) over the empty-result context:
the failure is the uncaught `IndexError`. -/
theorem branch_miss_fatal_witness :
    matchExchange fixEcoCtx [] fixEcoProc 0 0 fixBranchExc = .error .indexError :=
  branch_miss_fatal fixEcoCtx [] fixEcoProc 0 0 fixBranchExc
    { reference_product := pyStr "Widget", process_name := pyStr "widget work",
      location := pyStr "GLO" }
    (by decide) (fun _ _ => rfl) (by decide) (by decide) (by decide) (by decide)
    (by decide) (by decide) (by decide) (by decide)

end Simporter
